import Mathlib

/-!
Verification development for the LogHandler repository (Go): a two-stage
log pipeline consisting of a generator service (LogGenerator) and an
ingestion/query service (LogParser) backed by a relational store.

The Go sources are shallowly embedded: pure Go functions become Lean
functions over Nat/Int/ℚ/String; time instants are modelled as integers
(seconds, UTC, second precision — the store's time_local column also has
second precision, and the RFC3339 format/parse round trip used for cursor
values is the identity at that precision, so SQL comparisons on bound
RFC3339 strings are modelled as integer comparisons); external library
calls that parse or take square roots are passed in as explicit function
parameters.  Each definition names the Go function it embeds.
-/

namespace LogHandler

/-! ## Query compiler (LogParser/utils/generateQuery.go, LogParser/utils/filter.go)

GenerateFiltersMap (filter.go, lines 25-62) only ever produces filter keys
from a fixed set of six column names; `Column` is that closed set.
Values are bound SQL parameters: strings, integers, or RFC3339-formatted
instants (modelled as the instant itself, see the header note). -/

inductive Column
  | remote_addr
  | status
  | body_bytes_sent
  | http_referer
  | http_user_agent
  | http_x_forwarded_for
deriving DecidableEq

def colName : Column → String
  | .remote_addr => "remote_addr"
  | .status => "status"
  | .body_bytes_sent => "body_bytes_sent"
  | .http_referer => "http_referer"
  | .http_user_agent => "http_user_agent"
  | .http_x_forwarded_for => "http_x_forwarded_for"

inductive DBValue
  | vStr (s : String)
  | vInt (n : Int)
  | vTime (t : Int)
deriving DecidableEq

/-- models.Pagination (LogParser/models/requestFilter.go).  The Go struct
also carries an unused CursorID pointer; it is never written or read by the
query compiler. -/
structure Pagination where
  limit : Int
  cursor : Option Int
  cursorID : Option Int
  page : Int
deriving DecidableEq

/-- models.TimeFilter (LogParser/models/requestFilter.go). -/
structure TimeFilter where
  start_time : Option Int
  end_time : Option Int
deriving DecidableEq

/-- models.Log (LogParser/models/response.go sibling file): the nine
persisted columns minus the serial id.  time.Time is modelled as an
integer instant; the Go zero value time.Time{} is modelled as instant 0
(the particular numeral is irrelevant to every claim). -/
structure Log where
  remoteAddr : String
  remoteUser : String
  timeLocal : Int
  request : String
  status : Int
  bodyBytesSent : Int
  httpReferer : String
  httpUserAgent : String
  httpXForwardedFor : String
deriving DecidableEq

/-- One clause of the per-filter loop shared by the three WHERE-building
compilers: fmt.Sprintf(" AND %s = $%d", key, argIndex). -/
def filterClause (c : Column) (i : Nat) : String :=
  " AND " ++ colName c ++ " = $" ++ toString i

/-- The for-loop over the filters map (generateQuery.go lines 29-33,
86-90, 115-119): appends one clause and one argument per filter and
increments argIndex.  Go map iteration order is unspecified, so the
filters are taken as a list in an arbitrary order. -/
def addFilters : List (Column × DBValue) → String → List DBValue → Nat →
    String × List DBValue × Nat
  | [], q, args, i => (q, args, i)
  | (c, v) :: rest, q, args, i =>
      addFilters rest (q ++ filterClause c i) (args ++ [v]) (i + 1)

def selectBase : String :=
  "SELECT remote_addr, remote_user, time_local, request, status, body_bytes_sent, http_referer, http_user_agent, http_x_forwarded_for FROM logs WHERE 1=1"

/-- GenerateFilteredGetQuery (generateQuery.go lines 22-68). -/
def generateFilteredGetQuery (filters : List (Column × DBValue))
    (paginationFilter : Pagination) (dateFilter : TimeFilter) :
    String × List DBValue :=
  let s1 := addFilters filters selectBase [] 1
  let s2 := match dateFilter.start_time with
    | some t => (s1.1 ++ " AND time_local >= $" ++ toString s1.2.2,
                 s1.2.1 ++ [DBValue.vTime t], s1.2.2 + 1)
    | none => s1
  let s3 := match dateFilter.end_time with
    | some t => (s2.1 ++ " AND time_local <= $" ++ toString s2.2.2,
                 s2.2.1 ++ [DBValue.vTime t], s2.2.2 + 1)
    | none => s2
  let s4 := match paginationFilter.cursor with
    | some t => (s3.1 ++ " AND time_local > $" ++ toString s3.2.2,
                 s3.2.1 ++ [DBValue.vTime t], s3.2.2 + 1)
    | none => s3
  (s4.1 ++ " LIMIT $" ++ toString s4.2.2,
   s4.2.1 ++ [DBValue.vInt paginationFilter.limit])

/-- GenerateFilteredCountQuery (generateQuery.go lines 79-93). -/
def generateFilteredCountQuery (filters : List (Column × DBValue)) :
    String × List DBValue :=
  let s := addFilters filters "SELECT COUNT(*) FROM logs WHERE 1=1" [] 1
  (s.1, s.2.1)

/-- GenerateDeleteQuery (generateQuery.go lines 108-123).  Note: there is
no emptiness check on the filters map and no error return anywhere in this
function or its caller DeleteLogsHandler. -/
def generateDeleteQuery (filters : List (Column × DBValue)) :
    String × List DBValue :=
  let s := addFilters filters "DELETE FROM logs WHERE 1=1" [] 1
  (s.1, s.2.1)

/-- The nine bound values of one inserted row, in column order
(generateQuery.go lines 148-150). -/
def logValues (l : Log) : List DBValue :=
  [.vStr l.remoteAddr, .vStr l.remoteUser, .vTime l.timeLocal,
   .vStr l.request, .vInt l.status, .vInt l.bodyBytesSent,
   .vStr l.httpReferer, .vStr l.httpUserAgent, .vStr l.httpXForwardedFor]

/-- The nine-placeholder group of row i (generateQuery.go lines 140-141). -/
def rowPlaceholder (i : Nat) : String :=
  "($" ++ toString (i * 9 + 1) ++ ", $" ++ toString (i * 9 + 2) ++
  ", $" ++ toString (i * 9 + 3) ++ ", $" ++ toString (i * 9 + 4) ++
  ", $" ++ toString (i * 9 + 5) ++ ", $" ++ toString (i * 9 + 6) ++
  ", $" ++ toString (i * 9 + 7) ++ ", $" ++ toString (i * 9 + 8) ++
  ", $" ++ toString (i * 9 + 9) ++ ")"

/-- The row loop of GenerateAddQuery (generateQuery.go lines 138-151):
placeholder group, a comma between consecutive rows, nine values per row. -/
def addRows : List Log → Nat → Nat → String × List DBValue
  | [], _, _ => ("", [])
  | l :: rest, i, total =>
      let sep := if i < total - 1 then ", " else ""
      let s := addRows rest (i + 1) total
      (rowPlaceholder i ++ sep ++ s.1, logValues l ++ s.2)

def addBase : String :=
  "\n\t\tINSERT INTO logs (remote_addr, remote_user, time_local, request, status, body_bytes_sent, http_referer, http_user_agent, http_x_forwarded_for)\n\t\tVALUES "

/-- GenerateAddQuery (generateQuery.go lines 131-155). -/
def generateAddQuery (logs : List Log) : String × List DBValue :=
  let s := addRows logs 0 logs.length
  (addBase ++ s.1, s.2)

/-! ## Store semantics

The store is a list of rows in table-scan order.  The denotation of a
compiled statement applies exactly the WHERE clauses the compiler emitted
(one exact-match conjunct per filter, the date-range conjuncts, the strict
cursor conjunct) and the LIMIT clause.  The emitted select carries no
ORDER BY, so its denotation takes rows in scan order. -/

structure Row where
  id : Int
  entry : Log
deriving DecidableEq

/-- The column value a stored row exposes to an exact-match filter, with
the type GenerateFiltersMap (filter.go) binds for that column. -/
def colValue (c : Column) (l : Log) : DBValue :=
  match c with
  | .remote_addr => .vStr l.remoteAddr
  | .status => .vInt l.status
  | .body_bytes_sent => .vInt l.bodyBytesSent
  | .http_referer => .vStr l.httpReferer
  | .http_user_agent => .vStr l.httpUserAgent
  | .http_x_forwarded_for => .vStr l.httpXForwardedFor

/-- Conjunction of the per-filter equality clauses. -/
def rowMatchesFilters (fs : List (Column × DBValue)) (l : Log) : Bool :=
  fs.all (fun cv => colValue cv.1 l == cv.2)

/-- The full WHERE clause of the select emitted by
GenerateFilteredGetQuery: filters, time_local >= start, time_local <= end,
time_local > cursor. -/
def matchesWhere (fs : List (Column × DBValue)) (df : TimeFilter)
    (cursor : Option Int) (r : Row) : Bool :=
  rowMatchesFilters fs r.entry &&
  (match df.start_time with
   | some t => decide (t ≤ r.entry.timeLocal)
   | none => true) &&
  (match df.end_time with
   | some t => decide (r.entry.timeLocal ≤ t)
   | none => true) &&
  (match cursor with
   | some t => decide (t < r.entry.timeLocal)
   | none => true)

/-- Denotation of the select emitted by GenerateFilteredGetQuery. -/
def runSelect (store : List Row) (fs : List (Column × DBValue))
    (pag : Pagination) (df : TimeFilter) : List Row :=
  (store.filter (matchesWhere fs df pag.cursor)).take pag.limit.toNat

/-- Denotation of the delete emitted by GenerateDeleteQuery: the rows that
survive are those that fail some filter clause. -/
def runDelete (store : List Row) (fs : List (Column × DBValue)) :
    List Row :=
  store.filter (fun r => !(rowMatchesFilters fs r.entry))


/-! ## Request parameter handling (LogParser/utils/filter.go) -/

/-- The digits of a decimal numeral, or none when the character list is
empty or contains a non-digit. -/
def digitsVal : List Char → Option Nat
  | [] => none
  | cs =>
      if cs.all (fun c => c.isDigit) then
        some (cs.foldl (fun a c => a * 10 + (c.toNat - 48)) 0)
      else none

/-- strconv.Atoi (Go standard library), modelled for in-range decimal
strings: optional sign followed by at least one digit; the int64 overflow
error is not modelled. -/
def atoiOpt (s : String) : Option Int :=
  match s.data with
  | '-' :: rest => (digitsVal rest).map (fun n => -(n : Int))
  | '+' :: rest => (digitsVal rest).map (fun n => (n : Int))
  | cs => (digitsVal cs).map (fun n => (n : Int))

/-- The query parameters GetPaginationParams reads.  r.URL.Query().Get
returns the empty string when a parameter is absent, and the Go code
treats empty exactly like absent, so each parameter is modelled as the
raw string Get returns. -/
structure ReqParams where
  page : String
  limit : String
  cursor : String
deriving DecidableEq

/-- The page-parameter block of GetPaginationParams (filter.go lines
81-86): a present, numeric, positive page overrides the default. -/
def applyPageParam (r : ReqParams) (pagination : Pagination) : Pagination :=
  if r.page ≠ "" then
    match atoiOpt r.page with
    | some n => if 0 < n then { pagination with page := n } else pagination
    | none => pagination
  else pagination

/-- The limit-parameter block (filter.go lines 88-95): a present, numeric
limit in 1..100 overrides the default of 10. -/
def applyLimitParam (r : ReqParams) (pagination : Pagination) : Pagination :=
  if r.limit ≠ "" then
    match atoiOpt r.limit with
    | some n =>
        if 0 < n ∧ n ≤ 100 then { pagination with limit := n }
        else pagination
    | none => pagination
  else pagination

/-- The cursor-parameter block (filter.go lines 98-105): a present cursor
that parseDateOrDateTime accepts overrides the default; an absent or
unparsable cursor keeps it. -/
def applyCursorParam (pd : String → Option Int) (r : ReqParams)
    (pagination : Pagination) : Pagination :=
  if r.cursor ≠ "" then
    match pd r.cursor with
    | some t => { pagination with cursor := some t }
    | none => pagination
  else pagination

/-- GetPaginationParams (filter.go lines 71-110).  pd models
parseDateOrDateTime (filter.go lines 162-178: time.Parse with RFC3339,
then the date-only layout), returning the parsed instant or none; now is
time.Now() at request time, so the default cursor is now minus 24 hours. -/
def getPaginationParams (pd : String → Option Int) (now : Int)
    (r : ReqParams) : Pagination :=
  applyCursorParam pd r (applyLimitParam r (applyPageParam r
    { limit := 10, cursor := some (now - 24 * 3600), cursorID := none,
      page := 1 }))

/-! ## GET /logs page assembly and paging sessions
(LogParser/handlers/handlers.go, GetLogsHandler) -/

/-- The page assembly of GetLogsHandler (handlers.go lines 113-156):
rows are scanned in query order; next_cursor is the last scanned
time_local iff the page is non-empty and exactly limit rows were fetched;
prev_cursor is the first scanned time_local iff the page is non-empty and
a cursor was supplied.  FormatTime renders the instant in RFC3339, the
identity at second precision (header note). -/
structure PageResult where
  logs : List Row
  nextCursor : Option Int
  prevCursor : Option Int
deriving DecidableEq

def getLogsPage (store : List Row) (fs : List (Column × DBValue))
    (pag : Pagination) (df : TimeFilter) : PageResult :=
  let logs := runSelect store fs pag df
  { logs := logs
    nextCursor :=
      if logs.length ≠ 0 ∧ (logs.length : Int) = pag.limit then
        (logs.getLast?).map (fun r => r.entry.timeLocal)
      else none
    prevCursor :=
      if logs.length ≠ 0 ∧ (pag.cursor).isSome then
        (logs.head?).map (fun r => r.entry.timeLocal)
      else none }

/-- A client paging session over GET /logs with no filters and no date
range: request a page at the current cursor, follow next_cursor until it
is null, concatenating the pages.  fuel bounds the number of requests. -/
def pagingSession (store : List Row) (limit : Int) :
    Nat → Int → List Row
  | 0, _ => []
  | fuel + 1, c =>
      let page := getLogsPage store []
        { limit := limit, cursor := some c, cursorID := none, page := 1 }
        { start_time := none, end_time := none }
      match page.nextCursor with
      | none => page.logs
      | some c2 => page.logs ++ pagingSession store limit fuel c2

/-! ## Line decoding (LogParser/handlers/handlers.go, ParseLog)

ParseLog matches its input against a single anchored regular expression
(handlers.go line 303) whose groups are: a non-empty run of digits and
dots, the literal " - ", a non-empty run of non-whitespace, " [", a
non-empty run of non-] characters, "] ", a quoted lazy group, a space,
exactly three digits, a space, a non-empty digit run, and three more
space-separated quoted lazy groups, anchored at both ends.  The
decomposition below implements the match: each greedy class-run group is
followed by a delimiter outside its class, so it matches the maximal run,
and each lazy quoted group stops at the first quote.  (Go regexp finds
the same decomposition on every input whose quoted fields contain no
quote characters, which covers all generated lines.) -/

/-- The lazy quoted group: the characters before the first double quote
and the rest after it. -/
def scanToQuote : List Char → Option (List Char × List Char)
  | [] => none
  | c :: rest =>
      if c = '"' then some ([], rest)
      else (scanToQuote rest).map (fun pr => (c :: pr.1, pr.2))

/-- Consume an exact literal. -/
def dropLit (lit : List Char) (cs : List Char) : Option (List Char) :=
  if cs.take lit.length = lit then some (cs.drop lit.length) else none

structure RawFields where
  remoteAddr : List Char
  remoteUser : List Char
  timeStr : List Char
  request : List Char
  statusStr : List Char
  bytesStr : List Char
  httpReferer : List Char
  httpUserAgent : List Char
  httpXForwardedFor : List Char

/-- The regex groups after the opening quote of the request line: quoted
request, space, three-digit status, space, digit run, then the three
remaining quoted groups, anchored at the end. -/
def parseLogTail (addr user timeStr : List Char) (r6 : List Char) :
    Option RawFields :=
  match scanToQuote r6 with
  | none => none
  | some (request, r7) =>
    match dropLit (" ".data) r7 with
    | none => none
    | some r8 =>
      let statusStr := r8.take 3
      if statusStr.length = 3 ∧ statusStr.all (fun c => c.isDigit) then
        match dropLit (" ".data) (r8.drop 3) with
        | none => none
        | some r9 =>
          let s10 := r9.span (fun c => c.isDigit)
          if s10.1 = [] then none
          else
            match dropLit (" \"".data) s10.2 with
            | none => none
            | some r11 =>
              match scanToQuote r11 with
              | none => none
              | some (ref, r12) =>
                match dropLit (" \"".data) r12 with
                | none => none
                | some r13 =>
                  match scanToQuote r13 with
                  | none => none
                  | some (ua, r14) =>
                    match dropLit (" \"".data) r14 with
                    | none => none
                    | some r15 =>
                      match scanToQuote r15 with
                      | none => none
                      | some (xff, r16) =>
                        if r16 = [] then
                          some ⟨addr, user, timeStr, request, statusStr,
                            s10.1, ref, ua, xff⟩
                        else none
      else none

/-- The anchored regex match of ParseLog: leading address run, " - ",
user run, " [", timestamp run, "] ", then parseLogTail from the opening
quote of the request. -/
def parseLogFields (cs : List Char) : Option RawFields :=
  let s1 := cs.span (fun c => c.isDigit || c = '.')
  if s1.1 = [] then none
  else
    match dropLit (" - ".data) s1.2 with
    | none => none
    | some r2 =>
      let s2 := r2.span (fun c => !c.isWhitespace)
      if s2.1 = [] then none
      else
        match dropLit (" [".data) s2.2 with
        | none => none
        | some r4 =>
          let s3 := r4.span (fun c => c ≠ ']')
          if s3.1 = [] then none
          else
            match dropLit ("] \"".data) s3.2 with
            | none => none
            | some r6 => parseLogTail s1.1 s2.1 s3.1 r6

/-- handlers.Atoi (handlers.go lines 414-417): strconv.Atoi with the
error collapsed to 0. -/
def atoiGo (s : String) : Int := (atoiOpt s).getD 0

/-- The Go zero value of time.Time, as an instant (header note: the
numeral is irrelevant to every claim; what matters is that it is a fixed
constant, not the line's own timestamp). -/
def goZeroTime : Int := 0

/-- The zero-initialized models.Log that ParseLog returns on a failed
match. -/
def zeroLog : Log := ⟨"", "", goZeroTime, "", 0, 0, "", "", ""⟩

/-- ParseLog (handlers.go lines 301-329).  rp models
time.Parse(time.RFC3339, s): the parsed instant, or none on failure — in
which case the Go code keeps the zero time.Time and still returns the
record.  On a failed regex match the Go code returns the zero record. -/
def parseLog (rp : String → Option Int) (logStr : String) : Log :=
  match parseLogFields logStr.data with
  | none => zeroLog
  | some f =>
      let logTime :=
        match rp f.timeStr.asString with
        | some t => t
        | none => goZeroTime
      { remoteAddr := f.remoteAddr.asString
        remoteUser := f.remoteUser.asString
        timeLocal := logTime
        request := f.request.asString
        status := atoiGo f.statusStr.asString
        bodyBytesSent := atoiGo f.bytesStr.asString
        httpReferer := f.httpReferer.asString
        httpUserAgent := f.httpUserAgent.asString
        httpXForwardedFor := f.httpXForwardedFor.asString }

/-- The fan-out/fan-in of AddLogsHandler and ProcessLogWorker
(handlers.go lines 245-299): every submitted line is parsed by ParseLog
and every resulting record — zero records from malformed lines included —
is collected into logEntries; no record is ever dropped.  The collector's
order depends on goroutine scheduling; this model fixes submission order,
one admissible interleaving, and the claims proved about it (counts,
membership) are order-insensitive. -/
def collectParsed (rp : String → Option Int) (lines : List String) :
    List Log :=
  lines.map (parseLog rp)

/-- The single multi-row insert of AddLogsHandler (handlers.go lines
274-289): rowsAffected of an n-row VALUES insert is n. -/
def addLogsInserted (rp : String → Option Int) (lines : List String) :
    Nat :=
  (collectParsed rp lines).length

/-- The success response of AddLogsHandler (handlers.go line 289). -/
def addLogsResponseMsg (rp : String → Option Int) (lines : List String) :
    String :=
  "Logs stored successfully, " ++ toString (addLogsInserted rp lines) ++
  " rows inserted."

/-! ## Producer engine (LogGenerator/loggenerator/generator.go) -/

/-- maxBatchSizeBytes (generator.go line 17). -/
def maxBatchSizeBytes : Nat := 10 * 1024 * 1024

/-- Worker-pool sizing of GenerateLogsConcurrently (generator.go lines
73-80), before the final floor: optimalWorkers starts at numCPU and is
reassigned to numLogs/1000 capped at numCPU*2 only when numLogs exceeds
1000.  numCPU is runtime.NumCPU(), always at least 1.
int(float64(numLogs)/1000) is exact integer division at every realistic
magnitude and is modelled as such. -/
def optimalWorkersPre (numLogs numCPU : Nat) : Nat :=
  if 1000 < numLogs then
    (if numCPU * 2 < numLogs / 1000 then numCPU * 2 else numLogs / 1000)
  else numCPU

/-- The final reassignment of the sizing (generator.go lines 82-84):
floor the worker count at 1. -/
def optimalWorkers (numLogs numCPU : Nat) : Nat :=
  if optimalWorkersPre numLogs numCPU < 1 then 1
  else optimalWorkersPre numLogs numCPU

/-- The contiguous index range of one worker (generator.go lines 99-103):
endIndex is startIndex + logsPerWorker, extended to numLogs for the last
worker. -/
def workerRange (numLogs w workerID : Nat) : Nat × Nat :=
  let logsPerWorker := numLogs / w
  let startIndex := workerID * logsPerWorker
  let endIndex :=
    if workerID = w - 1 then numLogs else startIndex + logsPerWorker
  (startIndex, endIndex)

/-- The worker-count formula exactly as the specification words it —
workers = clamp(max(1, N/1000), 1, 2*parallelism), with clamp(x, lo, hi)
= min (max x lo) hi — written from the spec text for comparison against
optimalWorkers, which is written from the source. -/
def specWorkers (numLogs parallelism : Nat) : Nat :=
  min (max (max 1 (numLogs / 1000)) 1) (2 * parallelism)

inductive GenEvent
  | tick
  | cancel
deriving DecidableEq

/-- One producer worker of GenerateLogsConcurrently (generator.go lines
96-149), driven by the schedule of its select outcomes: each loop
iteration observes either the shared ticker (tick) or ctx.Done (cancel).
gen i models GenerateLog() at index i; numLogs and genCount model the
mutex-guarded over-production counter, localized to this worker.  The
result is (batches flushed to SendLogToProcessor, final generated count,
whether the worker returned early from inside the loop).  An exhausted
schedule models a worker still blocked in its select. -/
def workerRun (gen : Nat → String) (numLogs : Nat)
    (sched : List GenEvent) (logIndex endIndex : Nat)
    (batch : List String) (totalBatchSize genCount : Nat) :
    List (List String) × Nat × Bool :=
    if endIndex ≤ logIndex then
      -- for-loop complete: residual flush (generator.go lines 146-148)
      (if batch.length ≠ 0 then [batch] else [], genCount, false)
    else
      match sched with
      | [] => ([], genCount, false)
      | .cancel :: _ =>
          -- case <-ctx.Done(): return  (line 110-111); nothing is flushed
          ([], genCount, true)
      | .tick :: rest =>
          if numLogs ≤ genCount then
            -- over-production guard returns (lines 114-118)
            ([], genCount, true)
          else
            let line := gen logIndex
            let logSize := line.length
            -- byte-bound flush happens before appending (lines 127-133)
            let preFlush :=
              if maxBatchSizeBytes < totalBatchSize + logSize then
                ([batch], ([] : List String), 0)
              else (([] : List (List String)), batch, totalBatchSize)
            let batch1 := preFlush.2.1 ++ [line]
            let size1 := preFlush.2.2 + logSize
            -- count-bound flush happens after appending (lines 138-143)
            let step :=
              if 100 ≤ batch1.length then
                (preFlush.1 ++ [batch1], ([] : List String), 0)
              else (preFlush.1, batch1, size1)
            let rec2 := workerRun gen numLogs rest (logIndex + 1) endIndex
              step.2.1 step.2.2 (genCount + 1)
            (step.1 ++ rec2.1, rec2.2.1, rec2.2.2)

/-! ## Store reachability (LogParser/connection/connectDB.go) -/

/-- The state of the global DB handle at request time: none models a nil
handle, some b a handle whose Ping succeeds iff b. -/
inductive PingOutcome
  | ok
  | noConn
  | fatalExit
deriving DecidableEq

/-- PingDB (connectDB.go lines 62-77).  A nil handle returns
(false, nil).  A ping error reaches log.Fatalf, which terminates the
process — the subsequent return false, nil is dead code.  (The repository
also carries a second copy of this package in which the same branch
returns false instead; see pingDB_alt.) -/
def pingDB : Option Bool → PingOutcome
  | none => .noConn
  | some reachable => if reachable then .ok else .fatalExit

/-- The duplicate copy of PingDB (src/unnamed, logger-based connection
package): both failure branches return false to the caller and the
process keeps running. -/
def pingDB_alt : Option Bool → Bool
  | none => false
  | some reachable => reachable

/-- What GetLogsHandler does with the reachability check (handlers.go
lines 80-86): respond 500 with the fixed message when PingDB reports
failure, proceed when it reports success — but a fatal exit inside PingDB
never returns to the handler at all. -/
inductive HandlerStep
  | respond (code : Nat) (msg : String)
  | processExit
  | proceed
deriving DecidableEq

def getLogsDBCheck (db : Option Bool) : HandlerStep :=
  match pingDB db with
  | .fatalExit => .processExit
  | .noConn => .respond 500 "Failed to connect to Database!"
  | .ok => .proceed

/-! ## Anomaly detection (LogParser/ml, AnomalyDetector)

Go float64 arithmetic is idealized as exact rational arithmetic; math.Sqrt
is passed in as the parameter sqrtF (ℚ has no computable square root), and
every claim settled below is independent of the values sqrtF takes. -/

structure TimeSeriesPoint where
  timestamp : Int
  value : ℚ
deriving DecidableEq

structure AnomalyResult where
  timestamp : Int
  value : ℚ
  isAnomaly : Bool
  anomalyScore : ℚ
  threshold : ℚ
  severity : String
deriving DecidableEq

/-- MLConfig (security_analyzer.go lines 436-441), restricted to the
field the anomaly detector reads. -/
structure MLConfig where
  anomalyThreshold : ℚ
deriving DecidableEq

/-- The config NewMLService constructs (ml_service.go lines 26-31). -/
def serviceMLConfig : MLConfig := { anomalyThreshold := 2.5 }

/-- calculateMean (anomaly detector helper). -/
def calculateMean (values : List ℚ) : ℚ :=
  values.sum / (values.length : ℚ)

/-- calculateStdDev: population variance then math.Sqrt (the sqrtF
parameter). -/
def calculateStdDev (sqrtF : ℚ → ℚ) (values : List ℚ) (mean : ℚ) : ℚ :=
  sqrtF ((values.map (fun v => (v - mean) * (v - mean))).sum /
    (values.length : ℚ))

/-- calculateQuartiles: sort ascending, take indices n/4 and 3n/4. -/
def calculateQuartiles (values : List ℚ) : ℚ × ℚ :=
  let sorted := values.mergeSort (fun a b => decide (a ≤ b))
  let n := sorted.length
  (sorted.getD (n / 4) 0, sorted.getD (3 * n / 4) 0)

/-- calculateSeverity (anomaly detector, severity bands). -/
def calculateSeverity (score : ℚ) : String :=
  if score < 0.3 then "normal"
  else if score < 0.5 then "low"
  else if score < 0.7 then "medium"
  else if score < 0.9 then "high"
  else "critical"

/-- The loop body of DetectAnomalies for one point, given the statistics
computed before the loop: z-score test against the threshold, IQR fence
test, score min(z/5, 1), severity from the score. -/
def anomalyResultFor (zThreshold mean stdDev iqrLower iqrUpper : ℚ)
    (point : TimeSeriesPoint) : AnomalyResult :=
  let value := point.value
  let zScore := |(value - mean) / stdDev|
  let isZAnomaly : Bool := decide (zThreshold < zScore)
  let isIQRAnomaly : Bool :=
    decide (value < iqrLower) || decide (iqrUpper < value)
  let isAnomaly := isZAnomaly || isIQRAnomaly
  let anomalyScore := min (zScore / 5) 1
  { timestamp := point.timestamp
    value := value
    isAnomaly := isAnomaly
    anomalyScore := anomalyScore
    threshold := zThreshold
    severity := calculateSeverity anomalyScore }

/-- DetectAnomalies (AnomalyDetector): fewer than 10 points returns the
empty result; otherwise every point is scored against the Z-score and IQR
tests, with the configured threshold defaulting to 2.5 when unset. -/
def detectAnomalies (sqrtF : ℚ → ℚ) (cfg : MLConfig)
    (data : List TimeSeriesPoint) : List AnomalyResult :=
  if data.length < 10 then []
  else
    let values := data.map (fun p => p.value)
    let mean := calculateMean values
    let stdDev := calculateStdDev sqrtF values mean
    let q := calculateQuartiles values
    let iqr := q.2 - q.1
    let zThreshold :=
      if cfg.anomalyThreshold = 0 then 2.5 else cfg.anomalyThreshold
    data.map (anomalyResultFor zThreshold mean stdDev
      (q.1 - 1.5 * iqr) (q.2 + 1.5 * iqr))

/-! ## Concrete instances used by the claim theorems and witnesses -/

def c2Row : Row :=
  ⟨1, ⟨"10.0.0.1", "-", 100, "GET / HTTP/1.1", 200, 512, "-", "UA",
    "1.1.1.1"⟩⟩

/-- A stand-in for time.Parse that fails on every input; the C1 line is
rejected by the regex before any timestamp is reached, so its value is
irrelevant there. -/
def rpNone : String → Option Int := fun _ => none

/-- The well-formed line of the specification's scenario S4. -/
def c4GoodLine : String :=
  "192.168.1.1 - - [2025-04-10T10:20:30Z] \"GET /a HTTP/1.1\" 200 512 \"-\" \"UA\" \"1.1.1.1\""

/-- time.Parse(RFC3339) on the timestamps occurring in this run: the
instant 2025-04-10T10:20:30Z in seconds. -/
def rpC4 : String → Option Int :=
  fun s => if s = "2025-04-10T10:20:30Z" then some 1744280430 else none

/-- The record the decoder produces for c4GoodLine. -/
def c4GoodLog : Log :=
  ⟨"192.168.1.1", "-", 1744280430, "GET /a HTTP/1.1", 200, 512, "-",
    "UA", "1.1.1.1"⟩

/-- GenerateLog() modelled as a fixed line for the finite runs below. -/
def c6Gen : Nat → String := fun _ => "x"

/-- The per-point property claim C9 states: flagged iff the z-score
exceeds 2.5 or the point lies outside the IQR fences; score is
min(z/5, 1); severity from the score by the bands.  (Written from the
claim text, to be proved of every entry detectAnomalies returns.) -/
def c9SpecPredicate (μ σ q1 q3 : ℚ) (p : TimeSeriesPoint)
    (r : AnomalyResult) : Prop :=
  r.timestamp = p.timestamp ∧ r.value = p.value ∧
  (r.isAnomaly = true ↔
    (2.5 : ℚ) < |(p.value - μ) / σ| ∨
    p.value < q1 - 1.5 * (q3 - q1) ∨ q3 + 1.5 * (q3 - q1) < p.value) ∧
  r.anomalyScore = min (|(p.value - μ) / σ| / 5) 1 ∧
  r.severity =
    (if r.anomalyScore < 0.3 then "normal"
     else if r.anomalyScore < 0.5 then "low"
     else if r.anomalyScore < 0.7 then "medium"
     else if r.anomalyScore < 0.9 then "high"
     else "critical")

/-- math.Sqrt for the C9 witness series: its variance is 1, so the
identity function is a correct square root there. -/
def c9Sqrt : ℚ → ℚ := fun q => q

/-- A 10-point witness series alternating between 0 and 2 (mean 1,
variance 1). -/
def c9Data : List TimeSeriesPoint :=
  [⟨0, 0⟩, ⟨1, 2⟩, ⟨2, 0⟩, ⟨3, 2⟩, ⟨4, 0⟩, ⟨5, 2⟩, ⟨6, 0⟩, ⟨7, 2⟩,
   ⟨8, 0⟩, ⟨9, 2⟩]

/-- The base pagination record of a C10 witness request whose cursor
parameter is present but unparsable. -/
def c10Req : ReqParams := ⟨"", "", "not-a-date"⟩

/-- A parse function that rejects every input, modelling
parseDateOrDateTime failing on the garbage cursor. -/
def c10Parse : String → Option Int := fun _ => none

/-- A row 10 seconds old relative to the witness request time 100000. -/
def c10Row : Row :=
  ⟨1, ⟨"9.9.9.9", "-", 99990, "GET /w HTTP/1.1", 200, 7, "-", "UA",
    "8.8.8.8"⟩⟩

/-- Two stored rows sharing the same second-precision timestamp. -/
def c3RowA : Row :=
  ⟨1, ⟨"1.1.1.1", "-", 100, "GET /a HTTP/1.1", 200, 10, "-", "UA",
    "2.2.2.2"⟩⟩

def c3RowB : Row :=
  ⟨2, ⟨"1.1.1.1", "-", 100, "GET /b HTTP/1.1", 200, 10, "-", "UA",
    "2.2.2.2"⟩⟩

/-- Witness rows for the amended C3: three rows at strictly increasing
seconds. -/
def c3wStore : List Row :=
  [⟨1, ⟨"1.1.1.1", "-", 10, "GET /a HTTP/1.1", 200, 1, "-", "UA", "2.2.2.2"⟩⟩,
   ⟨2, ⟨"1.1.1.1", "-", 20, "GET /b HTTP/1.1", 200, 1, "-", "UA", "2.2.2.2"⟩⟩,
   ⟨3, ⟨"1.1.1.1", "-", 30, "GET /c HTTP/1.1", 200, 1, "-", "UA", "2.2.2.2"⟩⟩]

/-! ### Counting $n placeholder markers

Every placeholder the compiler emits is introduced by a literal dollar
sign, and nothing else the compiler concatenates (fixed SQL keywords,
column names from the closed set, decimal renderings of argIndex) contains
one, so the number of $n markers in an emitted statement equals the number
of occurrences of the character in it. -/

def countDollar (s : String) : Nat := s.data.count '$'

theorem countDollar_append (s t : String) :
    countDollar (s ++ t) = countDollar s + countDollar t := by
  have h : (s ++ t).data = s.data ++ t.data := rfl
  simp [countDollar, h]

theorem digitChar_ne_dollar : ∀ (n : Nat), Nat.digitChar n ≠ '$'
  | 0 => by decide
  | 1 => by decide
  | 2 => by decide
  | 3 => by decide
  | 4 => by decide
  | 5 => by decide
  | 6 => by decide
  | 7 => by decide
  | 8 => by decide
  | 9 => by decide
  | 10 => by decide
  | 11 => by decide
  | 12 => by decide
  | 13 => by decide
  | 14 => by decide
  | 15 => by decide
  | (n + 16) => by
      have h : Nat.digitChar (n + 16) = '*' := rfl
      rw [h]; decide

theorem toDigitsCore_ne_dollar (b : Nat) (f : Nat) :
    ∀ (n : Nat) (acc : List Char), (∀ c ∈ acc, c ≠ '$') →
      ∀ c ∈ Nat.toDigitsCore b f n acc, c ≠ '$' := by
  induction f with
  | zero => intro n acc hacc c hc; rw [Nat.toDigitsCore] at hc; exact hacc c hc
  | succ f ih =>
      intro n acc hacc c hc
      rw [Nat.toDigitsCore] at hc
      split at hc
      · rcases List.mem_cons.mp hc with h | h
        · subst h; exact digitChar_ne_dollar _
        · exact hacc c h
      · refine ih _ _ ?_ c hc
        intro d hd
        rcases List.mem_cons.mp hd with h | h
        · subst h; exact digitChar_ne_dollar _
        · exact hacc d h

theorem countDollar_natRepr (n : Nat) : countDollar (Nat.repr n) = 0 := by
  have h : ∀ c ∈ Nat.toDigits 10 n, c ≠ '$' :=
    toDigitsCore_ne_dollar 10 (n + 1) n [] (by intro c hc; cases hc)
  have hdata : (Nat.repr n).data = Nat.toDigits 10 n := rfl
  simp only [countDollar, hdata]
  exact List.count_eq_zero.mpr (fun hmem => h '$' hmem rfl)

theorem countDollar_toString_nat (n : Nat) : countDollar (toString n) = 0 :=
  countDollar_natRepr n

theorem countDollar_colName (c : Column) : countDollar (colName c) = 0 := by
  cases c <;> decide

theorem countDollar_filterClause (c : Column) (i : Nat) :
    countDollar (filterClause c i) = 1 := by
  simp [filterClause, countDollar_append, countDollar_colName,
    countDollar_toString_nat]
  decide

/-- Each iteration of the filter loop appends exactly one argument. -/
theorem addFilters_args_length (fs : List (Column × DBValue)) :
    ∀ (q : String) (args : List DBValue) (i : Nat),
      (addFilters fs q args i).2.1.length = args.length + fs.length := by
  induction fs with
  | nil => intro q args i; simp [addFilters]
  | cons hd tl ih =>
      intro q args i
      obtain ⟨c, v⟩ := hd
      simp only [addFilters, ih, List.length_append, List.length_cons,
        List.length_singleton, List.length_nil]
      omega

/-- Each iteration of the filter loop appends exactly one dollar marker. -/
theorem addFilters_countDollar (fs : List (Column × DBValue)) :
    ∀ (q : String) (args : List DBValue) (i : Nat),
      countDollar (addFilters fs q args i).1 = countDollar q + fs.length := by
  induction fs with
  | nil => intro q args i; simp [addFilters]
  | cons hd tl ih =>
      intro q args i
      obtain ⟨c, v⟩ := hd
      show countDollar (addFilters tl (q ++ filterClause c i) (args ++ [v]) (i + 1)).1 = _
      rw [ih, countDollar_append, countDollar_filterClause, List.length_cons]
      omega

theorem countDollar_rowPlaceholder (i : Nat) :
    countDollar (rowPlaceholder i) = 9 := by
  simp only [rowPlaceholder, countDollar_append, countDollar_toString_nat]
  decide

theorem logValues_length (l : Log) : (logValues l).length = 9 := by
  simp [logValues]

theorem addRows_spec (logs : List Log) :
    ∀ (i total : Nat),
      countDollar (addRows logs i total).1 = 9 * logs.length ∧
      (addRows logs i total).2.length = 9 * logs.length := by
  induction logs with
  | nil => intro i total; constructor <;> simp [addRows, countDollar]
  | cons hd tl ih =>
      intro i total
      have h := ih (i + 1) total
      constructor
      · show countDollar (rowPlaceholder i ++ _ ++ _) = _
        rw [countDollar_append, countDollar_append, countDollar_rowPlaceholder,
          h.1]
        have hsep : countDollar (if i < total - 1 then ", " else "") = 0 := by
          split <;> decide
        rw [hsep]
        simp [List.length_cons]
        ring
      · show (logValues hd ++ (addRows tl (i + 1) total).2).length = _
        rw [List.length_append, logValues_length, h.2]
        simp [List.length_cons]
        ring

/-! ## Claim C5 -/

/-- C5: for every filter map, pagination setting, date range, and list of
records, each query-compiler function (select, count, delete, multi-row
insert) returns a parameter list whose length equals the number of $n
placeholder markers in the SQL statement it emits. -/
theorem claim_C5_param_count_eq_placeholders
    (fs : List (Column × DBValue)) (pag : Pagination) (df : TimeFilter)
    (logs : List Log) :
    countDollar (generateFilteredGetQuery fs pag df).1 =
      (generateFilteredGetQuery fs pag df).2.length ∧
    countDollar (generateFilteredCountQuery fs).1 =
      (generateFilteredCountQuery fs).2.length ∧
    countDollar (generateDeleteQuery fs).1 =
      (generateDeleteQuery fs).2.length ∧
    countDollar (generateAddQuery logs).1 =
      (generateAddQuery logs).2.length := by
  have h1 : countDollar (" AND time_local >= $") = 1 := by decide
  have h2 : countDollar (" AND time_local <= $") = 1 := by decide
  have h3 : countDollar (" AND time_local > $") = 1 := by decide
  have h4 : countDollar (" LIMIT $") = 1 := by decide
  refine ⟨?_, ?_, ?_, ?_⟩
  · obtain ⟨lim, cur, cid, pg⟩ := pag
    obtain ⟨st, et⟩ := df
    have hbase : countDollar selectBase = 0 := by decide
    have hcf := addFilters_countDollar fs selectBase [] 1
    have haf := addFilters_args_length fs selectBase [] 1
    cases st <;> cases et <;> cases cur <;>
      simp only [generateFilteredGetQuery, countDollar_append, hcf, haf,
        hbase, countDollar_toString_nat, h1, h2, h3, h4,
        List.length_append, List.length_nil, List.length_cons,
        List.length_singleton]
  · have hbase : countDollar ("SELECT COUNT(*) FROM logs WHERE 1=1") = 0 := by
      decide
    have hcf := addFilters_countDollar fs ("SELECT COUNT(*) FROM logs WHERE 1=1") [] 1
    have haf := addFilters_args_length fs ("SELECT COUNT(*) FROM logs WHERE 1=1") [] 1
    simp only [generateFilteredCountQuery, hcf, haf, hbase,
      List.length_nil]
  · have hbase : countDollar ("DELETE FROM logs WHERE 1=1") = 0 := by decide
    have hcf := addFilters_countDollar fs ("DELETE FROM logs WHERE 1=1") [] 1
    have haf := addFilters_args_length fs ("DELETE FROM logs WHERE 1=1") [] 1
    simp only [generateDeleteQuery, hcf, haf, hbase, List.length_nil]
  · have h := addRows_spec logs 0 logs.length
    have hbase : countDollar addBase = 0 := by decide
    simp only [generateAddQuery, countDollar_append, hbase, h.1, h.2]
    omega

/-! ## Claim C2

GenerateDeleteQuery (generateQuery.go lines 108-123) contains no
emptiness check: with an empty filter map it emits the unfiltered
statement DELETE FROM logs WHERE 1=1 with an empty parameter list, and
DeleteLogsHandler (handlers.go lines 175-204) executes whatever the
compiler returns.  No DeleteRequiresFilter error exists anywhere in the
repository. -/

/-- C2 counterexample: at the empty filter set the compiler does emit a
delete statement (the unfiltered DELETE FROM logs WHERE 1=1 with no
parameters and no error), and executing it on a one-row store deletes
the row — the stored row count changes from 1 to 0 rather than staying
unchanged as the claim requires. -/
theorem claim_C2_counterexample :
    (generateDeleteQuery []).1 = "DELETE FROM logs WHERE 1=1" ∧
    (generateDeleteQuery []).2 = [] ∧
    runDelete [c2Row] [] = [] ∧
    ([c2Row] : List Row).length = 1 := by
  refine ⟨rfl, rfl, ?_, rfl⟩
  simp [runDelete, rowMatchesFilters]

/-- C2 amended: for every delete request the query compiler emits a
delete statement extending DELETE FROM logs WHERE 1=1 — also when the
filter set is empty, in which case the statement carries no filter clause
and executing it deletes every stored row; no DeleteRequiresFilter error
is ever returned. -/
theorem claim_C2_amended (fs : List (Column × DBValue))
    (store : List Row) :
    (∃ rest, (generateDeleteQuery fs).1 =
      "DELETE FROM logs WHERE 1=1" ++ rest) ∧
    runDelete store [] = [] := by
  constructor
  · have key : ∀ (gs : List (Column × DBValue)) (q : String)
        (args : List DBValue) (i : Nat),
        ∃ rest, (addFilters gs q args i).1 = q ++ rest := by
      intro gs
      induction gs with
      | nil =>
          intro q args i
          exact ⟨"", by simp [addFilters]⟩
      | cons hd tl ih =>
          intro q args i
          obtain ⟨c, v⟩ := hd
          obtain ⟨rest, hrest⟩ := ih (q ++ filterClause c i) (args ++ [v]) (i + 1)
          exact ⟨filterClause c i ++ rest, by
            simp only [addFilters] at hrest ⊢
            rw [hrest, String.append_assoc]⟩
    exact key fs ("DELETE FROM logs WHERE 1=1") [] 1
  · simp [runDelete, rowMatchesFilters]

/-! ## Claim C1 -/

/-- C1 (code-bug evaluation): the line "BAD" does not match the decoder's
anchored regex, yet ParseLog returns the zero-initialized record — its
return type has no drop sentinel at all — the worker forwards it, the
collector keeps it, and the batched insert of AddLogsHandler persists it
as a row: one line in, one (zero) row inserted, contradicting the claim
that a non-matching line is never inserted as a zero-initialized
record. -/
theorem claim_C1_parse_failure_zero_record_persisted :
    parseLog rpNone "BAD" = zeroLog ∧
    collectParsed rpNone ["BAD"] = [zeroLog] ∧
    addLogsInserted rpNone ["BAD"] = 1 :=
  ⟨rfl, rfl, rfl⟩

/-! ## Claim C4 -/

/-- C4 (code-bug evaluation): on the S4 body of one malformed and one
well-formed line, AddLogsHandler parses both, drops neither, inserts two
rows (the zero record and the good record), and responds with a message
reporting only the inserted count — there is no dropped count anywhere in
the response, and rows_inserted is 2 where the claim requires
rows_inserted = 1 and rows_dropped = 1. -/
theorem claim_C4_mixed_batch_all_inserted :
    addLogsInserted rpC4 ["BAD", c4GoodLine] = 2 ∧
    collectParsed rpC4 ["BAD", c4GoodLine] = [zeroLog, c4GoodLog] ∧
    addLogsResponseMsg rpC4 ["BAD", c4GoodLine] =
      "Logs stored successfully, 2 rows inserted." :=
  ⟨rfl, rfl, rfl⟩

/-! ## Claim C8 -/

/-- C8 (code-bug evaluation): with the DB handle initialized but the
database unreachable (Ping returns an error), PingDB reaches log.Fatalf
and the process terminates before any HTTP response — the claimed
return-failure behaviour is dead code after the Fatalf.  Only the
nil-handle state produces the claimed 500 envelope.  The repository's
duplicate copy of PingDB returns false for the same state, exactly as the
claim describes, which marks the Fatalf as the slip. -/
theorem claim_C8_unreachable_store_fatal_exit :
    pingDB (some false) = PingOutcome.fatalExit ∧
    getLogsDBCheck (some false) = HandlerStep.processExit ∧
    getLogsDBCheck none =
      HandlerStep.respond 500 "Failed to connect to Database!" ∧
    pingDB_alt (some false) = false :=
  ⟨rfl, rfl, rfl, rfl⟩

/-! ## Claim C7 -/

/-- C7 counterexample: at N = 500 requested lines on a host with
parallelism 4, the source sizes the pool at numCPU = 4 workers (the
N/1000 formula is only applied when N exceeds 1000), while the claimed
formula clamp(max(1, 500/1000), 1, 8) gives 1. -/
theorem claim_C7_counterexample :
    optimalWorkers 500 4 = 4 ∧ specWorkers 500 4 = 1 ∧
    optimalWorkers 500 4 ≠ specWorkers 500 4 := by decide

/-- The two components of a worker range, unfolded. -/
theorem workerRange_fst (N w i : Nat) :
    (workerRange N w i).1 = i * (N / w) := rfl

theorem workerRange_snd (N w i : Nat) :
    (workerRange N w i).2 =
      if i = w - 1 then N else i * (N / w) + N / w := rfl

/-- Every position below N falls in exactly one worker range. -/
theorem workerRange_partition (N w : Nat) (hw : 1 ≤ w) (j : Nat)
    (hj : j < N) :
    ∃! i, i < w ∧ (workerRange N w i).1 ≤ j ∧
      j < (workerRange N w i).2 := by
  -- Two distinct ranges cannot both contain j: the lower one ends at
  -- (a+1)*(N/w), which is at most where the higher one starts.
  have half : ∀ a b, a < b →
      (a < w ∧ (workerRange N w a).1 ≤ j ∧ j < (workerRange N w a).2) →
      (b < w ∧ (workerRange N w b).1 ≤ j ∧ j < (workerRange N w b).2) →
      False := by
    intro a b hab ha hb
    obtain ⟨haw, ha1, ha2⟩ := ha
    obtain ⟨hbw, hb1, hb2⟩ := hb
    rw [workerRange_fst] at hb1
    rw [workerRange_snd] at ha2
    have hane : a ≠ w - 1 := by omega
    rw [if_neg hane] at ha2
    have h1 : (a + 1) * (N / w) = a * (N / w) + N / w :=
      Nat.succ_mul a (N / w)
    have h2 : (a + 1) * (N / w) ≤ b * (N / w) :=
      mul_le_mul_right' (by omega) (N / w)
    omega
  have key : ∀ a b,
      (a < w ∧ (workerRange N w a).1 ≤ j ∧ j < (workerRange N w a).2) →
      (b < w ∧ (workerRange N w b).1 ≤ j ∧ j < (workerRange N w b).2) →
      a = b := by
    intro a b ha hb
    rcases Nat.lt_trichotomy a b with h | h | h
    · exact (half a b h ha hb).elim
    · exact h
    · exact (half b a h hb ha).elim
  rcases Nat.eq_zero_or_pos (N / w) with hL | hL
  · -- degenerate division (N < w): every non-last range is empty and the
    -- last range is all of 0..N
    have hmem : (w - 1) < w ∧ (workerRange N w (w - 1)).1 ≤ j ∧
        j < (workerRange N w (w - 1)).2 := by
      refine ⟨by omega, ?_, ?_⟩
      · rw [workerRange_fst, hL]; omega
      · rw [workerRange_snd, if_pos rfl]; exact hj
    exact ⟨w - 1, hmem, fun y hy => key y (w - 1) hy hmem⟩
  · have hdm : N / w * (j / (N / w)) + j % (N / w) = j :=
      Nat.div_add_mod j (N / w)
    have hdm' : (j / (N / w)) * (N / w) + j % (N / w) = j := by
      rw [Nat.mul_comm (j / (N / w)) (N / w)]; exact hdm
    have hmod : j % (N / w) < N / w := Nat.mod_lt _ hL
    by_cases hbig : w - 1 ≤ j / (N / w)
    · have hstart : (w - 1) * (N / w) ≤ j := by
        have h2 : (w - 1) * (N / w) ≤ (j / (N / w)) * (N / w) :=
          mul_le_mul_right' hbig (N / w)
        omega
      have hmem : (w - 1) < w ∧ (workerRange N w (w - 1)).1 ≤ j ∧
          j < (workerRange N w (w - 1)).2 := by
        refine ⟨by omega, ?_, ?_⟩
        · rw [workerRange_fst]; exact hstart
        · rw [workerRange_snd, if_pos rfl]; exact hj
      exact ⟨w - 1, hmem, fun y hy => key y (w - 1) hy hmem⟩
    · have hne : j / (N / w) ≠ w - 1 := by omega
      have hmem : (j / (N / w)) < w ∧
          (workerRange N w (j / (N / w))).1 ≤ j ∧
          j < (workerRange N w (j / (N / w))).2 := by
        refine ⟨by omega, ?_, ?_⟩
        · rw [workerRange_fst]; omega
        · rw [workerRange_snd, if_neg hne]; omega
      exact ⟨j / (N / w), hmem, fun y hy => key y (j / (N / w)) hy hmem⟩

/-- C7 amended: the source sizes the pool as workers = numCPU when
N ≤ 1000 and min(N/1000, 2·numCPU) when N > 1000 (the spec formula
clamp(max(1, N/1000), 1, 2·parallelism) only agrees above 1000 lines);
the work is divided into contiguous per-worker index ranges — consecutive
ranges abut, the last range ends at N, absorbing the remainder — and
every index belongs to exactly one range. -/
theorem claim_C7_amended (N p : Nat) (hp : 1 ≤ p) :
    optimalWorkers N p =
      (if 1000 < N then min (N / 1000) (2 * p) else p) ∧
    (∀ i, i + 1 < optimalWorkers N p →
      (workerRange N (optimalWorkers N p) i).2 =
        (workerRange N (optimalWorkers N p) (i + 1)).1) ∧
    (workerRange N (optimalWorkers N p)
      (optimalWorkers N p - 1)).2 = N ∧
    (∀ j, j < N → ∃! i, i < optimalWorkers N p ∧
      (workerRange N (optimalWorkers N p) i).1 ≤ j ∧
      j < (workerRange N (optimalWorkers N p) i).2) := by
  have hw1 : 1 ≤ optimalWorkers N p := by
    rw [optimalWorkers]
    split <;> omega
  refine ⟨?_, ?_, ?_, ?_⟩
  · rw [optimalWorkers, optimalWorkersPre, Nat.min_def]
    split_ifs <;> omega
  · intro i hi
    have hne : i ≠ optimalWorkers N p - 1 := by omega
    rw [workerRange_fst, workerRange_snd, if_neg hne, Nat.succ_mul]
  · rw [workerRange_snd, if_pos rfl]
  · intro j hj
    exact workerRange_partition N (optimalWorkers N p) hw1 j hj

/-- C7 amended, witness at N = 5000 lines and parallelism 4. -/
theorem claim_C7_amended_witness :
    1 ≤ 4 ∧
    (optimalWorkers 5000 4 =
      (if 1000 < 5000 then min (5000 / 1000) (2 * 4) else 4) ∧
    (∀ i, i + 1 < optimalWorkers 5000 4 →
      (workerRange 5000 (optimalWorkers 5000 4) i).2 =
        (workerRange 5000 (optimalWorkers 5000 4) (i + 1)).1) ∧
    (workerRange 5000 (optimalWorkers 5000 4)
      (optimalWorkers 5000 4 - 1)).2 = 5000 ∧
    (∀ j, j < 5000 → ∃! i, i < optimalWorkers 5000 4 ∧
      (workerRange 5000 (optimalWorkers 5000 4) i).1 ≤ j ∧
      j < (workerRange 5000 (optimalWorkers 5000 4) i).2)) :=
  ⟨by decide, claim_C7_amended 5000 4 (by decide)⟩

/-! ## Claim C6 -/

/-- C6 counterexample: a worker with range 0..2 that receives one tick
(generating one line, which joins its batch) and then the cancel signal
returns through the ctx.Done() branch with no flush at all: the flushed
batch list is empty although one line was generated and pending — the
pending batch is lost, not flushed.  Had the ticks continued instead, the
same worker would have flushed the batch on loop completion. -/
theorem claim_C6_counterexample :
    workerRun c6Gen 2 [GenEvent.tick, GenEvent.cancel] 0 2 [] 0 0 =
      ([], 1, true) ∧
    workerRun c6Gen 2 [GenEvent.tick, GenEvent.tick] 0 2 [] 0 0 =
      ([["x", "x"]], 2, false) := by
  constructor <;> rfl

/-- C6 amended: on the cancel signal a mid-range worker exits immediately
— it starts no new line and its generated count is unchanged — but its
pending batch is discarded, not flushed; the residual batch is flushed
only when the worker completes its index range normally. -/
theorem claim_C6_amended (gen : Nat → String) (numLogs : Nat)
    (rest sched : List GenEvent) (logIndex endIndex : Nat)
    (batch : List String) (totalBatchSize genCount : Nat) :
    (logIndex < endIndex →
      workerRun gen numLogs (GenEvent.cancel :: rest) logIndex endIndex
        batch totalBatchSize genCount = ([], genCount, true)) ∧
    (endIndex ≤ logIndex →
      workerRun gen numLogs sched logIndex endIndex
        batch totalBatchSize genCount =
        (if batch.length ≠ 0 then [batch] else [], genCount, false)) := by
  constructor
  · intro h
    rw [workerRun.eq_def]
    rw [if_neg (by omega)]
  · intro h
    rw [workerRun.eq_def]
    rw [if_pos h]

/-- C6 amended, witness: a cancelled worker at index 0 of range 0..2 with
one pending line returns with nothing flushed; a worker whose loop has
completed flushes its pending batch. -/
theorem claim_C6_amended_witness :
    workerRun c6Gen 5 [GenEvent.cancel] 0 2 ["y"] 1 1 = ([], 1, true) ∧
    workerRun c6Gen 5 [GenEvent.tick] 2 2 ["y"] 1 1 = ([["y"]], 1, false) :=
  ⟨(claim_C6_amended c6Gen 5 [] [GenEvent.cancel] 0 2 ["y"] 1 1).1
      (by decide),
   by
    have h := (claim_C6_amended c6Gen 5 [] [GenEvent.tick] 2 2 ["y"] 1 1).2
      (by decide)
    simpa using h⟩

/-! ## Claim C9 -/

/-- C9: with the service configuration (effective threshold 2.5) and a
nondegenerate series (nonzero standard deviation, the regime in which the
Go float arithmetic agrees with the exact model), detectAnomalies returns
an empty result on fewer than 10 points, and otherwise one result per
point, flagged iff z > 2.5 or the value is outside Q1 - 1.5 IQR ..
Q3 + 1.5 IQR, scored min(z/5, 1), with severity by the bands
normal < 0.3 ≤ low < 0.5 ≤ medium < 0.7 ≤ high < 0.9 ≤ critical. -/
theorem claim_C9_anomaly_flag_score_severity
    (sqrtF : ℚ → ℚ) (cfg : MLConfig) (data : List TimeSeriesPoint)
    (hτ : (if cfg.anomalyThreshold = 0 then 2.5 else cfg.anomalyThreshold) =
      (2.5 : ℚ))
    (hσ : calculateStdDev sqrtF (data.map (fun p => p.value))
      (calculateMean (data.map (fun p => p.value))) ≠ 0) :
    (data.length < 10 → detectAnomalies sqrtF cfg data = []) ∧
    (10 ≤ data.length →
      List.Forall₂
        (c9SpecPredicate
          (calculateMean (data.map (fun p => p.value)))
          (calculateStdDev sqrtF (data.map (fun p => p.value))
            (calculateMean (data.map (fun p => p.value))))
          (calculateQuartiles (data.map (fun p => p.value))).1
          (calculateQuartiles (data.map (fun p => p.value))).2)
        data (detectAnomalies sqrtF cfg data)) := by
  have hd : detectAnomalies sqrtF cfg data =
      if data.length < 10 then []
      else data.map (anomalyResultFor
        (if cfg.anomalyThreshold = 0 then 2.5 else cfg.anomalyThreshold)
        (calculateMean (data.map (fun p => p.value)))
        (calculateStdDev sqrtF (data.map (fun p => p.value))
          (calculateMean (data.map (fun p => p.value))))
        ((calculateQuartiles (data.map (fun p => p.value))).1 -
          1.5 * ((calculateQuartiles (data.map (fun p => p.value))).2 -
            (calculateQuartiles (data.map (fun p => p.value))).1))
        ((calculateQuartiles (data.map (fun p => p.value))).2 +
          1.5 * ((calculateQuartiles (data.map (fun p => p.value))).2 -
            (calculateQuartiles (data.map (fun p => p.value))).1))) := rfl
  constructor
  · intro h
    rw [hd, if_pos h]
  · intro hlen
    rw [hd, if_neg (by omega), hτ]
    rw [List.forall₂_map_right_iff, List.forall₂_same]
    intro p hp
    refine ⟨rfl, rfl, ?_, rfl, rfl⟩
    show (decide _ || (decide _ || decide _)) = true ↔ _
    simp only [Bool.or_eq_true, decide_eq_true_iff]

/-- C9 witness: the hypotheses hold at the service config and the
10-point witness series, and the per-point property follows. -/
theorem claim_C9_witness :
    ((if serviceMLConfig.anomalyThreshold = 0 then 2.5
      else serviceMLConfig.anomalyThreshold) = (2.5 : ℚ)) ∧
    (calculateStdDev c9Sqrt (c9Data.map (fun p => p.value))
      (calculateMean (c9Data.map (fun p => p.value))) ≠ 0) ∧
    10 ≤ c9Data.length ∧
    List.Forall₂
      (c9SpecPredicate
        (calculateMean (c9Data.map (fun p => p.value)))
        (calculateStdDev c9Sqrt (c9Data.map (fun p => p.value))
          (calculateMean (c9Data.map (fun p => p.value))))
        (calculateQuartiles (c9Data.map (fun p => p.value))).1
        (calculateQuartiles (c9Data.map (fun p => p.value))).2)
      c9Data (detectAnomalies c9Sqrt serviceMLConfig c9Data) := by
  have hτ : (if serviceMLConfig.anomalyThreshold = 0 then 2.5
      else serviceMLConfig.anomalyThreshold) = (2.5 : ℚ) := by
    norm_num [serviceMLConfig]
  have hσ : calculateStdDev c9Sqrt (c9Data.map (fun p => p.value))
      (calculateMean (c9Data.map (fun p => p.value))) ≠ 0 := by
    simp [calculateStdDev, calculateMean, c9Sqrt, c9Data]
    norm_num
  exact ⟨hτ, hσ, by decide,
    (claim_C9_anomaly_flag_score_severity c9Sqrt serviceMLConfig c9Data
      hτ hσ).2 (by decide)⟩

/-! ## Claim C10 -/

theorem applyPageParam_cursor (r : ReqParams) (p : Pagination) :
    (applyPageParam r p).cursor = p.cursor := by
  unfold applyPageParam
  split
  · rcases hA : atoiOpt r.page with _ | n
    · rfl
    · dsimp only
      split <;> rfl
  · rfl

theorem applyLimitParam_cursor (r : ReqParams) (p : Pagination) :
    (applyLimitParam r p).cursor = p.cursor := by
  unfold applyLimitParam
  split
  · rcases hA : atoiOpt r.limit with _ | n
    · rfl
    · dsimp only
      split <;> rfl
  · rfl

theorem applyCursorParam_keep (pd : String → Option Int) (r : ReqParams)
    (p : Pagination) (h : r.cursor = "" ∨ pd r.cursor = none) :
    applyCursorParam pd r p = p := by
  unfold applyCursorParam
  rcases h with h | h
  · rw [h]
    simp
  · split
    · rw [h]
    · rfl

/-- C10: when the cursor parameter is absent or unparsable, the
pagination defaults install the cursor now − 24h (the page and limit
blocks never touch it), and because the compiled select's cursor clause
is the strict predicate time_local > cursor, every row such a request
returns has time_local strictly newer than now − 24h — never older. -/
theorem claim_C10_default_cursor_24h
    (pd : String → Option Int) (now : Int) (r : ReqParams)
    (fs : List (Column × DBValue)) (df : TimeFilter) (store : List Row)
    (row : Row)
    (hcur : r.cursor = "" ∨ pd r.cursor = none)
    (hrow : row ∈ runSelect store fs (getPaginationParams pd now r) df) :
    (getPaginationParams pd now r).cursor = some (now - 24 * 3600) ∧
    now - 24 * 3600 < row.entry.timeLocal ∧
    ¬ row.entry.timeLocal < now - 24 * 3600 := by
  have hc : (getPaginationParams pd now r).cursor = some (now - 24 * 3600) := by
    unfold getPaginationParams
    rw [applyCursorParam_keep pd r _ hcur, applyLimitParam_cursor,
      applyPageParam_cursor]
  simp only [runSelect] at hrow
  have hmem := List.take_subset _ _ hrow
  have hm := List.of_mem_filter hmem
  rw [hc] at hm
  simp only [matchesWhere, Bool.and_eq_true, decide_eq_true_iff] at hm
  exact ⟨hc, hm.2, by omega⟩

/-- C10 witness: at the unparsable-cursor request over a one-row store,
the returned row is newer than now − 24h. -/
theorem claim_C10_witness :
    (c10Req.cursor = "" ∨ c10Parse c10Req.cursor = none) ∧
    c10Row ∈ runSelect [c10Row] []
      (getPaginationParams c10Parse 100000 c10Req)
      { start_time := none, end_time := none } ∧
    ((getPaginationParams c10Parse 100000 c10Req).cursor =
      some (100000 - 24 * 3600) ∧
    (100000 : Int) - 24 * 3600 < c10Row.entry.timeLocal ∧
    ¬ c10Row.entry.timeLocal < (100000 : Int) - 24 * 3600) :=
  ⟨Or.inr rfl, by decide,
    claim_C10_default_cursor_24h c10Parse 100000 c10Req []
      { start_time := none, end_time := none } [c10Row] c10Row
      (Or.inr rfl) (by decide)⟩

/-! ## Claim C3, counterexample -/

/-- C3 counterexample: the emitted cursor clause is the single-column
strict predicate time_local > $n — there is no (time_local, id)
composite — and with two rows tied on the same second and limit 1, a
paging session from cursor 0 yields only the first row: the second row,
although in the stable backing set and newer than the initial cursor, is
never yielded (its timestamp equals the next_cursor, which the strict
predicate excludes), so iteration does not visit each row exactly once. -/
theorem claim_C3_counterexample :
    pagingSession [c3RowA, c3RowB] 1 3 0 = [c3RowA] ∧
    c3RowB ∈ ([c3RowA, c3RowB] : List Row) ∧
    (0 : Int) < c3RowB.entry.timeLocal ∧
    c3RowB ∉ pagingSession [c3RowA, c3RowB] 1 3 0 ∧
    (generateFilteredGetQuery []
      { limit := 1, cursor := some 0, cursorID := none, page := 1 }
      { start_time := none, end_time := none }).1 =
      selectBase ++ " AND time_local > $1 LIMIT $2" := by
  refine ⟨by decide, by decide, by decide, by decide, rfl⟩

/-! ## Claim C3, amended -/

theorem matchesWhere_nil (c : Int) (r : Row) :
    matchesWhere [] { start_time := none, end_time := none } (some c) r =
      decide (c < r.entry.timeLocal) := by
  simp [matchesWhere, rowMatchesFilters]

theorem runSelect_session (store : List Row) (lim : Nat) (c : Int) :
    runSelect store []
      { limit := (lim : Int), cursor := some c, cursorID := none, page := 1 }
      { start_time := none, end_time := none } =
      (store.filter (fun r => decide (c < r.entry.timeLocal))).take lim := by
  unfold runSelect
  rw [List.filter_congr (fun r _ => matchesWhere_nil c r)]
  norm_num

/-- In a list sorted by strictly increasing timestamps, every element's
timestamp is at most the last one's. -/
theorem sorted_last_max {l : List Row}
    (hs : l.Pairwise (fun a b => a.entry.timeLocal < b.entry.timeLocal))
    (hne : l ≠ []) :
    ∀ x ∈ l, x.entry.timeLocal ≤ (l.getLast hne).entry.timeLocal := by
  intro x hx
  rw [List.getLast_eq_get]
  obtain ⟨i, hi⟩ := List.mem_iff_get.mp hx
  rcases Nat.lt_or_ge i.1 (l.length - 1) with h | h
  · have hr := List.pairwise_iff_get.mp hs i
      ⟨l.length - 1, by omega⟩ h
    rw [hi] at hr
    exact le_of_lt hr
  · have hieq : i = (⟨l.length - 1, by omega⟩ : Fin l.length) := by
      apply Fin.ext
      show i.1 = l.length - 1
      have := i.2
      omega
    rw [← hieq, hi]

/-- C3 amended: the list cursor is the single column time_local — the
emitted cursor clause is the strict predicate time_local > $n with no id
component and next_cursor carries only the final row's timestamp — so
rows tied on a second-precision timestamp can be skipped (see the
counterexample).  Under a stable backing set whose scan order carries
pairwise strictly increasing timestamps, a paging session that follows
next_cursor until null yields exactly the stored rows strictly newer
than the initial cursor, each exactly once. -/
theorem claim_C3_amended (store : List Row) (lim : Nat) (hlim : 1 ≤ lim)
    (hsorted : store.Pairwise
      (fun a b => a.entry.timeLocal < b.entry.timeLocal)) :
    ∀ (fuel : Nat) (c : Int),
      (store.filter (fun r => decide (c < r.entry.timeLocal))).length + 1 ≤
        fuel →
      pagingSession store (lim : Int) fuel c =
        store.filter (fun r => decide (c < r.entry.timeLocal)) := by
  intro fuel
  induction fuel with
  | zero => intro c h; omega
  | succ fuel ih =>
    intro c hfuel
    have h1 : getLogsPage store []
        { limit := (lim : Int), cursor := some c, cursorID := none,
          page := 1 }
        { start_time := none, end_time := none } =
        { logs := (store.filter
            (fun r => decide (c < r.entry.timeLocal))).take lim
          nextCursor :=
            if ((store.filter
                (fun r => decide (c < r.entry.timeLocal))).take lim).length
                  ≠ 0 ∧
              (((store.filter
                (fun r => decide (c < r.entry.timeLocal))).take
                  lim).length : Int) = (lim : Int) then
              (((store.filter
                (fun r => decide (c < r.entry.timeLocal))).take
                  lim).getLast?).map (fun r => r.entry.timeLocal)
            else none
          prevCursor :=
            if ((store.filter
                (fun r => decide (c < r.entry.timeLocal))).take lim).length
                  ≠ 0 ∧
              (Option.some c).isSome then
              (((store.filter
                (fun r => decide (c < r.entry.timeLocal))).take
                  lim).head?).map (fun r => r.entry.timeLocal)
            else none } := by
      unfold getLogsPage
      rw [runSelect_session]
    rw [pagingSession, h1]
    rcases Nat.lt_or_ge (store.filter
        (fun r => decide (c < r.entry.timeLocal))).length lim with hlt | hge
    · -- short page: next_cursor is null and the page is the whole tail
      have htake : (store.filter
          (fun r => decide (c < r.entry.timeLocal))).take lim =
          store.filter (fun r => decide (c < r.entry.timeLocal)) :=
        List.take_of_length_le (by omega)
      rw [htake]
      rw [if_neg ?hneg]
      case hneg =>
        rintro ⟨_, hb⟩
        have : (store.filter
            (fun r => decide (c < r.entry.timeLocal))).length = lim := by
          exact_mod_cast hb
        omega
    · -- full page: follow next_cursor
      have hlen_take : ((store.filter
          (fun r => decide (c < r.entry.timeLocal))).take lim).length =
          lim := by
        rw [List.length_take]
        omega
      have hne_take : (store.filter
          (fun r => decide (c < r.entry.timeLocal))).take lim ≠ [] := by
        intro h
        rw [h] at hlen_take
        simp at hlen_take
        omega
      obtain ⟨piv, hpiv, hpe⟩ : ∃ x,
          ((store.filter
            (fun r => decide (c < r.entry.timeLocal))).take
              lim).getLast? = some x ∧
          x = ((store.filter
            (fun r => decide (c < r.entry.timeLocal))).take
              lim).getLast hne_take :=
        ⟨_, List.getLast?_eq_getLast _ hne_take, rfl⟩
      rw [if_pos ⟨by omega, by exact_mod_cast hlen_take⟩, hpiv]
      simp only [Option.map_some']
      have hpiv_mem_take : piv ∈ (store.filter
          (fun r => decide (c < r.entry.timeLocal))).take lim := by
        rw [hpe]
        exact List.getLast_mem hne_take
      have hpiv_mem : piv ∈
          store.filter (fun r => decide (c < r.entry.timeLocal)) :=
        List.take_subset _ _ hpiv_mem_take
      have hc_lt : c < piv.entry.timeLocal := by
        have := List.of_mem_filter hpiv_mem
        simpa using this
      have hMs : (store.filter
          (fun r => decide (c < r.entry.timeLocal))).Pairwise
          (fun a b => a.entry.timeLocal < b.entry.timeLocal) :=
        hsorted.filter _
      have htake_sorted : ((store.filter
          (fun r => decide (c < r.entry.timeLocal))).take lim).Pairwise
          (fun a b => a.entry.timeLocal < b.entry.timeLocal) :=
        hMs.sublist (List.take_sublist _ _)
      have htake_le : ∀ x ∈ (store.filter
          (fun r => decide (c < r.entry.timeLocal))).take lim,
          x.entry.timeLocal ≤ piv.entry.timeLocal := by
        rw [hpe]
        exact sorted_last_max htake_sorted hne_take
      have hdrop_gt : ∀ x ∈ (store.filter
          (fun r => decide (c < r.entry.timeLocal))).drop lim,
          piv.entry.timeLocal < x.entry.timeLocal := by
        intro x hx
        have hsplit := hMs
        rw [← List.take_append_drop lim (store.filter
          (fun r => decide (c < r.entry.timeLocal)))] at hsplit
        obtain ⟨-, -, hcross⟩ := List.pairwise_append.mp hsplit
        exact hcross _ hpiv_mem_take x hx
      have hfilter2 : store.filter
          (fun r => decide (piv.entry.timeLocal < r.entry.timeLocal)) =
          (store.filter (fun r => decide (c < r.entry.timeLocal))).drop
            lim := by
        have hstep1 : store.filter
            (fun r => decide (piv.entry.timeLocal < r.entry.timeLocal)) =
            (store.filter (fun r => decide (c < r.entry.timeLocal))).filter
              (fun r => decide (piv.entry.timeLocal <
                r.entry.timeLocal)) := by
          rw [List.filter_filter]
          refine List.filter_congr ?_
          intro r _
          by_cases h : piv.entry.timeLocal < r.entry.timeLocal
          · have hcr : c < r.entry.timeLocal := lt_trans hc_lt h
            simp [h, hcr]
          · simp [h]
        rw [hstep1]
        conv_lhs =>
          rw [← List.take_append_drop lim (store.filter
            (fun r => decide (c < r.entry.timeLocal)))]
        rw [List.filter_append]
        have hnil : ((store.filter
            (fun r => decide (c < r.entry.timeLocal))).take lim).filter
            (fun r => decide (piv.entry.timeLocal <
              r.entry.timeLocal)) = [] := by
          rw [List.filter_eq_nil]
          intro x hx
          have := htake_le x hx
          simp
          omega
        have hself : ((store.filter
            (fun r => decide (c < r.entry.timeLocal))).drop lim).filter
            (fun r => decide (piv.entry.timeLocal <
              r.entry.timeLocal)) =
            (store.filter (fun r => decide (c < r.entry.timeLocal))).drop
              lim := by
          rw [List.filter_eq_self]
          intro x hx
          have := hdrop_gt x hx
          simpa using this
        rw [hnil, hself, List.nil_append]
      have hrec := ih piv.entry.timeLocal ?hyp
      case hyp =>
        rw [hfilter2, List.length_drop]
        omega
      show ((store.filter
          (fun r => decide (c < r.entry.timeLocal))).take lim) ++
          pagingSession store (lim : Int) fuel piv.entry.timeLocal = _
      rw [hrec, hfilter2, List.take_append_drop]

/-- C3 amended, witness: with limit 2 over three strictly increasing
rows, the session from cursor 0 yields all three rows exactly once. -/
theorem claim_C3_amended_witness :
    1 ≤ 2 ∧
    c3wStore.Pairwise
      (fun a b => a.entry.timeLocal < b.entry.timeLocal) ∧
    (c3wStore.filter (fun r => decide ((0 : Int) < r.entry.timeLocal))).length
      + 1 ≤ 4 ∧
    pagingSession c3wStore ((2 : Nat) : Int) 4 0 =
      c3wStore.filter (fun r => decide ((0 : Int) < r.entry.timeLocal)) := by
  have hs : c3wStore.Pairwise
      (fun a b => a.entry.timeLocal < b.entry.timeLocal) := by
    simp [c3wStore, List.pairwise_cons]
  exact ⟨by omega, hs, by decide,
    claim_C3_amended c3wStore 2 (by omega) hs 4 0 (by decide)⟩

end LogHandler
